import Mathlib

/-!
Verification development for the `divide-and-concquer-svd` snippet
(`src/2013-12-09-divide-and-concquer-svd.cpp`) and for the benchmark-harness
design its specification derives from it.

The repository source exports four thin wrappers (`baseSVD`, `dcSVD`,
`cxBaseSVD`, `cxDcSVD`), each a single call into the external Armadillo
linear-algebra library's `arma::svd`, differing only in the method-selection
string ("standard" vs "dc").  The SVD computation itself is not part of the
repository; the spec treats the library as an opaque external collaborator
supplying a function that satisfies the kernel contract.  Accordingly, the
embedding is parameterised over the library: a library value maps the method
string and the input matrix either to a raised failure or to the filled
`(U, S, V)` triple, and the wrappers are translated statement-by-statement
from the C++ bodies.

The Kernel Registry / Timing Harness / Result Reporter of the spec's §2-§4
have no code under `src/`; they are modelled from the spec (each such
definition carries a doc comment starting `Modelled from the spec:`).

Real scalars are modelled as `ℚ` (exact arithmetic stands in for
double-precision floats); complex scalars as pairs of reals.
-/

namespace SVDBench

/-- A numeric vector (`arma::vec`): a list of real scalars. -/
abbrev Vec := List ℚ

/-- A dense real matrix (`arma::mat`), row-major. -/
abbrev Mat := List (List ℚ)

/-- A dense complex matrix (`arma::cx_mat`), row-major; each entry is a
(real part, imaginary part) pair. -/
abbrev CxMat := List (List (ℚ × ℚ))

/-- Modelled from the spec: the external linear-algebra library's real SVD
routine (`arma::svd(U, S, V, X, method)` for `arma::mat`), which is missing
from `src/` — the spec says the SVD computation is "entirely delegated to an
external library and not reimplemented here" and is to be treated as "an
opaque function satisfying the Kernel contract".  A call receives the
method-selection string and the input matrix and either raises a failure
(per the spec's propagation policy all failures are raised to the caller) or
fills in the `(U, S, V)` triple, with the singular values `S` a real vector. -/
structure RealSVDLib where
  svd : String → Mat → Except String (Mat × Vec × Mat)

/-- Modelled from the spec: the external library's complex SVD routine
(`arma::svd(U, S, V, X, method)` for `arma::cx_mat`), missing from `src/`
like its real counterpart.  `U` and `V` are complex while the singular
values `S` are a real vector, matching the `arma::vec S` declaration in all
four wrapper bodies. -/
structure CxSVDLib where
  svd : String → CxMat → Except String (CxMat × Vec × CxMat)

/-- Local state of a real wrapper body at return: the borrowed input `X`
(taken by const reference in the source) together with the locals
`U`, `S`, `V` declared at the top of the body. -/
structure RealWrapperState where
  X : Mat
  U : Mat
  S : Vec
  V : Mat
deriving Repr, DecidableEq

/-- Local state of a complex wrapper body at return. -/
structure CxWrapperState where
  X : CxMat
  U : CxMat
  S : Vec
  V : CxMat
deriving Repr, DecidableEq

/-- Body of `baseSVD` (src lines 20-25), state-passing translation:
`arma::mat U, V; arma::vec S;` are default-constructed (empty), the library
call `arma::svd(U, S, V, X, "standard")` fills them or raises, and `S` is
returned.  The first component is the wrapper's result (a raised failure
propagates — the body installs no handler); the second is the state of `X`
and the locals when control leaves the body (on failure the outputs are
left reset and the borrowed `X` is untouched). -/
def baseSVDBody (lib : RealSVDLib) (X : Mat) :
    Except String Vec × RealWrapperState :=
  match lib.svd "standard" X with
  | .ok (U, S, V) => (.ok S, ⟨X, U, S, V⟩)
  | .error e => (.error e, ⟨X, [], [], []⟩)

/-- Body of `dcSVD` (src lines 28-33): identical to `baseSVDBody` except for
the method-selection string `"dc"`. -/
def dcSVDBody (lib : RealSVDLib) (X : Mat) :
    Except String Vec × RealWrapperState :=
  match lib.svd "dc" X with
  | .ok (U, S, V) => (.ok S, ⟨X, U, S, V⟩)
  | .error e => (.error e, ⟨X, [], [], []⟩)

/-- Body of `cxBaseSVD` (src lines 54-59): complex input, method
`"standard"`; the singular-value vector `S` is declared real (`arma::vec`). -/
def cxBaseSVDBody (lib : CxSVDLib) (X : CxMat) :
    Except String Vec × CxWrapperState :=
  match lib.svd "standard" X with
  | .ok (U, S, V) => (.ok S, ⟨X, U, S, V⟩)
  | .error e => (.error e, ⟨X, [], [], []⟩)

/-- Body of `cxDcSVD` (src lines 62-67): complex input, method `"dc"`. -/
def cxDcSVDBody (lib : CxSVDLib) (X : CxMat) :
    Except String Vec × CxWrapperState :=
  match lib.svd "dc" X with
  | .ok (U, S, V) => (.ok S, ⟨X, U, S, V⟩)
  | .error e => (.error e, ⟨X, [], [], []⟩)

/-- `baseSVD`, as observed by the caller: the value returned (or the failure
propagated) by the wrapper body. -/
def baseSVD (lib : RealSVDLib) (X : Mat) : Except String Vec :=
  (baseSVDBody lib X).1

/-- `dcSVD`, as observed by the caller. -/
def dcSVD (lib : RealSVDLib) (X : Mat) : Except String Vec :=
  (dcSVDBody lib X).1

/-- `cxBaseSVD`, as observed by the caller. -/
def cxBaseSVD (lib : CxSVDLib) (X : CxMat) : Except String Vec :=
  (cxBaseSVDBody lib X).1

/-- `cxDcSVD`, as observed by the caller. -/
def cxDcSVD (lib : CxSVDLib) (X : CxMat) : Except String Vec :=
  (cxDcSVDBody lib X).1

/-- The kernel output contract from the spec's data model: the singular
values are an ordered sequence of non-negative reals, sorted descending. -/
def SVContract (s : Vec) : Prop :=
  s.Sorted (· ≥ ·) ∧ ∀ x ∈ s, 0 ≤ x

instance (s : Vec) : Decidable (SVContract s) := by
  unfold SVContract; infer_instance

/-- Modelled from the spec: the contract the external real SVD routine is
assumed to satisfy ("an opaque function satisfying the Kernel contract in
§3"): whenever a call succeeds, the returned singular values satisfy
`SVContract`. -/
def RealLibContract (lib : RealSVDLib) : Prop :=
  ∀ m X U S V, lib.svd m X = .ok (U, S, V) → SVContract S

/-- Modelled from the spec: the kernel contract for the complex routine. -/
def CxLibContract (lib : CxSVDLib) : Prop :=
  ∀ m X U S V, lib.svd m X = .ok (U, S, V) → SVContract S

/-- Modelled from the spec: method-independence of the real routine — the
"standard" and "dc" methods are "interchangeable implementations of one
functional contract", so when both succeed on the same matrix they compute
the same singular-value vector (mathematically the singular values are a
function of the matrix alone). -/
def RealMethodIndep (lib : RealSVDLib) : Prop :=
  ∀ X U S V U' S' V', lib.svd "standard" X = .ok (U, S, V) →
    lib.svd "dc" X = .ok (U', S', V') → S = S'

/-- Modelled from the spec: method-independence of the complex routine. -/
def CxMethodIndep (lib : CxSVDLib) : Prop :=
  ∀ X U S V U' S' V', lib.svd "standard" X = .ok (U, S, V) →
    lib.svd "dc" X = .ok (U', S', V') → S = S'

/-- Modelled from the spec: the error taxonomy of §7 — `DuplicateNameError`,
`UnknownKernelError`, `UnsupportedTypeError`, `InvalidArgumentError`,
`KernelExecutionError` (which wraps the underlying cause and, per §7, carries
the kernel name and the repetition index at which the failure occurred) and
`EmptySampleError`. -/
inductive BenchError where
  | duplicateName (name : String)
  | unknownKernel (name : String)
  | unsupportedType (name : String)
  | invalidArgument (msg : String)
  | kernelExecution (kernel : String) (repetition : Nat) (cause : String)
  | emptySample
deriving Repr, DecidableEq

/-- Modelled from the spec: a registered kernel as the Timing Harness
observes it — one timed invocation maps the repetition index (1-based) and
the input matrix either to the measured wall-clock duration of that
invocation (the Timing Sample, read off the external monotonic clock; the
kernel's output vector is consumed and discarded by the harness) or to the
failure the invocation raised.  The behaviour may depend on the repetition
index so that the spec's misbehaving kernels (its "fails on its 3rd
invocation" scenario) are representable. -/
abbrev TimedKernel := Nat → Mat → Except String ℚ

/-- Modelled from the spec: the Kernel Registry's store — named kernels in
registration order ("no ordering guarantee is required among registered
kernels", so a simple association list suffices). -/
abbrev Registry := List (String × TimedKernel)

/-- Modelled from the spec: `register(name, kernel)` adds a named kernel and
fails with `DuplicateNameError` if the name already exists; on failure the
store is not extended (the caller's registry is left as it was). -/
def register (reg : Registry) (name : String) (k : TimedKernel) :
    Except BenchError Registry :=
  match reg.find? (fun p => p.1 == name) with
  | some _ => .error (.duplicateName name)
  | none => .ok (reg ++ [(name, k)])

/-- Modelled from the spec: `resolve(name)` returns the kernel registered
under `name` (the first registration, should the store ever hold more than
one) or fails with `UnknownKernelError`. -/
def resolve (reg : Registry) (name : String) : Except BenchError TimedKernel :=
  match reg.find? (fun p => p.1 == name) with
  | some p => .ok p.2
  | none => .error (.unknownKernel name)

/-- Modelled from the spec: the harness's measurement loop for one kernel —
execute the kernel `n` more times starting at repetition index `i`,
collecting one Timing Sample per invocation; the series stops at the first
failing invocation, reporting its repetition index and the underlying
cause (any samples gathered before the failure are discarded). -/
def collect (k : TimedKernel) (M : Mat) : Nat → Nat → Except (Nat × String) (List ℚ)
  | _, 0 => .ok []
  | i, n + 1 =>
    match k i M with
    | .error e => .error (i, e)
    | .ok d =>
      match collect k M (i + 1) n with
      | .error f => .error f
      | .ok ds => .ok (d :: ds)

/-- Modelled from the spec: the per-kernel aggregate of §3 — count of
samples, min, max, arithmetic mean and median (standard deviation is
optional and omitted). -/
structure BenchResult where
  count : Nat
  min : ℚ
  max : ℚ
  mean : ℚ
  median : ℚ
deriving Repr, DecidableEq

/-- Modelled from the spec: the Result Reporter's
`summarize(samples) -> Benchmark Result` — fails with `EmptySampleError` on
zero samples, otherwise computes count, min, max, arithmetic mean and
median (for even-length sequences, the average of the two central values). -/
def summarize (samples : List ℚ) : Except BenchError BenchResult :=
  match samples with
  | [] => .error .emptySample
  | _ :: _ =>
    let sorted := samples.insertionSort (· ≤ ·)
    let n := samples.length
    let median :=
      if n % 2 = 1 then sorted.getD (n / 2) 0
      else (sorted.getD (n / 2 - 1) 0 + sorted.getD (n / 2) 0) / 2
    .ok ⟨n, sorted.getD 0 0, sorted.getD (n - 1) 0, samples.sum / (n : ℚ), median⟩

/-- Modelled from the spec: the harness's handling of one resolved kernel —
run the measurement series (repetition indices 1 through `reps`) and
aggregate; a failing invocation aborts the series and surfaces
`KernelExecutionError` wrapping the underlying cause together with the
kernel name and the repetition index, and no partial aggregate is
produced. -/
def runKernel (name : String) (k : TimedKernel) (M : Mat) (reps : Nat) :
    Except BenchError BenchResult :=
  match collect k M 1 reps with
  | .error (i, e) => .error (.kernelExecution name i e)
  | .ok samples => summarize samples

/-- Modelled from the spec: iteration of `run` over the requested kernel
names — each name is resolved via the Kernel Registry (resolution errors
propagate to `run`'s caller), and each resolved kernel is measured
independently of the others, so one kernel's execution failure is confined
to its own entry (failure isolation across kernels). -/
def runAll (reg : Registry) (M : Mat) (reps : Nat) :
    List String → Except BenchError (List (String × Except BenchError BenchResult))
  | [] => .ok []
  | name :: rest =>
    match resolve reg name with
    | .error e => .error e
    | .ok k =>
      match runAll reg M reps rest with
      | .error e => .error e
      | .ok out => .ok ((name, runKernel name k M reps) :: out)

/-- Modelled from the spec: the Timing Harness's
`run(kernelNames, input, repetitions) -> mapping from name to Benchmark
Result` — validates `repetitions >= 1` (failing with `InvalidArgumentError`
otherwise) and then measures each named kernel on the identical input. -/
def run (reg : Registry) (names : List String) (M : Mat) (reps : Nat) :
    Except BenchError (List (String × Except BenchError BenchResult)) :=
  if reps < 1 then .error (.invalidArgument "repetitions must be at least 1")
  else runAll reg M reps names

/-- State-passing form of `run` recording the borrowed input matrix at
return: the spec's harness "borrows it read-only", and the model gives the
harness no channel through which to replace it. -/
def runBody (reg : Registry) (names : List String) (M : Mat) (reps : Nat) :
    Except BenchError (List (String × Except BenchError BenchResult)) × Mat :=
  (run reg names M reps, M)

/-! ### Concrete library and kernel instances used to exercise the theorems -/

/-- A real library whose calls always succeed, returning the fixed
singular-value vector `[2, 1]` (sorted descending, non-negative). -/
def okRealLib : RealSVDLib := ⟨fun _ _ => .ok ([], [2, 1], [])⟩

/-- A complex library whose calls always succeed with singular values `[2, 1]`. -/
def okCxLib : CxSVDLib := ⟨fun _ _ => .ok ([], [2, 1], [])⟩

/-- A real library whose calls always raise a failure. -/
def failRealLib : RealSVDLib := ⟨fun _ _ => .error "decomposition failed"⟩

/-- A complex library whose calls always raise a failure. -/
def failCxLib : CxSVDLib := ⟨fun _ _ => .error "decomposition failed"⟩

/-- A kernel whose every invocation succeeds, with duration `1`. -/
def okKernel : TimedKernel := fun _ _ => .ok 1

/-- A kernel that raises on its 3rd invocation and succeeds otherwise. -/
def flakyKernel : TimedKernel := fun i _ => if i = 3 then .error "boom" else .ok 1

/-! ### Wrapper lemmas -/

theorem baseSVD_ok_iff (lib : RealSVDLib) (X : Mat) (s : Vec) :
    baseSVD lib X = .ok s ↔ ∃ U V, lib.svd "standard" X = .ok (U, s, V) := by
  unfold baseSVD baseSVDBody
  rcases h : lib.svd "standard" X with e | ⟨U, S, V⟩ <;> simp [h]

theorem dcSVD_ok_iff (lib : RealSVDLib) (X : Mat) (s : Vec) :
    dcSVD lib X = .ok s ↔ ∃ U V, lib.svd "dc" X = .ok (U, s, V) := by
  unfold dcSVD dcSVDBody
  rcases h : lib.svd "dc" X with e | ⟨U, S, V⟩ <;> simp [h]

theorem cxBaseSVD_ok_iff (lib : CxSVDLib) (X : CxMat) (s : Vec) :
    cxBaseSVD lib X = .ok s ↔ ∃ U V, lib.svd "standard" X = .ok (U, s, V) := by
  unfold cxBaseSVD cxBaseSVDBody
  rcases h : lib.svd "standard" X with e | ⟨U, S, V⟩ <;> simp [h]

theorem cxDcSVD_ok_iff (lib : CxSVDLib) (X : CxMat) (s : Vec) :
    cxDcSVD lib X = .ok s ↔ ∃ U V, lib.svd "dc" X = .ok (U, s, V) := by
  unfold cxDcSVD cxDcSVDBody
  rcases h : lib.svd "dc" X with e | ⟨U, S, V⟩ <;> simp [h]

theorem baseSVDBody_X (lib : RealSVDLib) (X : Mat) :
    (baseSVDBody lib X).2.X = X := by
  unfold baseSVDBody
  rcases lib.svd "standard" X with e | ⟨U, S, V⟩ <;> rfl

theorem dcSVDBody_X (lib : RealSVDLib) (X : Mat) :
    (dcSVDBody lib X).2.X = X := by
  unfold dcSVDBody
  rcases lib.svd "dc" X with e | ⟨U, S, V⟩ <;> rfl

theorem cxBaseSVDBody_X (lib : CxSVDLib) (X : CxMat) :
    (cxBaseSVDBody lib X).2.X = X := by
  unfold cxBaseSVDBody
  rcases lib.svd "standard" X with e | ⟨U, S, V⟩ <;> rfl

theorem cxDcSVDBody_X (lib : CxSVDLib) (X : CxMat) :
    (cxDcSVDBody lib X).2.X = X := by
  unfold cxDcSVDBody
  rcases lib.svd "dc" X with e | ⟨U, S, V⟩ <;> rfl

/-! ### Claims about the four exported wrappers -/

/-- Claim C1: for every matrix accepted by a kernel (every matrix on which
the wrapper returns a value rather than propagating a failure), the returned
singular values are non-negative and sorted descending, for each of the four
exported wrappers, provided the external library meets the kernel contract
the spec assigns it. -/
theorem c1_wrapper_outputs_sorted_nonneg (libR : RealSVDLib) (libC : CxSVDLib)
    (hR : RealLibContract libR) (hC : CxLibContract libC)
    (X : Mat) (Y : CxMat) (s : Vec) :
    (baseSVD libR X = .ok s → SVContract s) ∧
    (dcSVD libR X = .ok s → SVContract s) ∧
    (cxBaseSVD libC Y = .ok s → SVContract s) ∧
    (cxDcSVD libC Y = .ok s → SVContract s) := by
  refine ⟨fun h => ?_, fun h => ?_, fun h => ?_, fun h => ?_⟩
  · obtain ⟨U, V, h⟩ := (baseSVD_ok_iff libR X s).mp h
    exact hR _ _ _ _ _ h
  · obtain ⟨U, V, h⟩ := (dcSVD_ok_iff libR X s).mp h
    exact hR _ _ _ _ _ h
  · obtain ⟨U, V, h⟩ := (cxBaseSVD_ok_iff libC Y s).mp h
    exact hC _ _ _ _ _ h
  · obtain ⟨U, V, h⟩ := (cxDcSVD_ok_iff libC Y s).mp h
    exact hC _ _ _ _ _ h

theorem okRealLib_contract : RealLibContract okRealLib := by
  intro m X U S V h
  simp only [okRealLib, Except.ok.injEq, Prod.mk.injEq] at h
  obtain ⟨-, hS, -⟩ := h
  subst hS
  decide

theorem okCxLib_contract : CxLibContract okCxLib := by
  intro m X U S V h
  simp only [okCxLib, Except.ok.injEq, Prod.mk.injEq] at h
  obtain ⟨-, hS, -⟩ := h
  subst hS
  decide

theorem okRealLib_indep : RealMethodIndep okRealLib := by
  intro X U S V U' S' V' h h'
  simp only [okRealLib, Except.ok.injEq, Prod.mk.injEq] at h h'
  obtain ⟨-, hS, -⟩ := h
  obtain ⟨-, hS', -⟩ := h'
  rw [← hS, ← hS']

theorem okCxLib_indep : CxMethodIndep okCxLib := by
  intro X U S V U' S' V' h h'
  simp only [okCxLib, Except.ok.injEq, Prod.mk.injEq] at h h'
  obtain ⟨-, hS, -⟩ := h
  obtain ⟨-, hS', -⟩ := h'
  rw [← hS, ← hS']

/-- Witness for C1 at a concrete library and matrix. -/
theorem c1_witness :
    (baseSVD okRealLib [[1]] = .ok [2, 1] → SVContract [2, 1]) ∧
    (dcSVD okRealLib [[1]] = .ok [2, 1] → SVContract [2, 1]) ∧
    (cxBaseSVD okCxLib [[(1, 0)]] = .ok [2, 1] → SVContract [2, 1]) ∧
    (cxDcSVD okCxLib [[(1, 0)]] = .ok [2, 1] → SVContract [2, 1]) :=
  c1_wrapper_outputs_sorted_nonneg okRealLib okCxLib
    okRealLib_contract okCxLib_contract [[1]] [[(1, 0)]] [2, 1]

/-- Claim C2: the paired variants differ only in the method-selection
argument — when the external library's "standard" and "dc" methods compute
the same singular values (the spec's interchangeability of the two methods),
`baseSVD` and `dcSVD` agree on every real matrix on which both succeed, and
`cxBaseSVD` and `cxDcSVD` agree on every complex matrix on which both
succeed. -/
theorem c2_variants_interchangeable (libR : RealSVDLib) (libC : CxSVDLib)
    (hR : RealMethodIndep libR) (hC : CxMethodIndep libC)
    (X : Mat) (Y : CxMat) :
    (∀ s s', baseSVD libR X = .ok s → dcSVD libR X = .ok s' → s = s') ∧
    (∀ s s', cxBaseSVD libC Y = .ok s → cxDcSVD libC Y = .ok s' → s = s') := by
  constructor
  · intro s s' hs hs'
    obtain ⟨U, V, hs⟩ := (baseSVD_ok_iff libR X s).mp hs
    obtain ⟨U', V', hs'⟩ := (dcSVD_ok_iff libR X s').mp hs'
    exact hR _ _ _ _ _ _ _ hs hs'
  · intro s s' hs hs'
    obtain ⟨U, V, hs⟩ := (cxBaseSVD_ok_iff libC Y s).mp hs
    obtain ⟨U', V', hs'⟩ := (cxDcSVD_ok_iff libC Y s').mp hs'
    exact hC _ _ _ _ _ _ _ hs hs'

/-- Witness for C2 at a concrete library and matrix. -/
theorem c2_witness :
    (∀ s s', baseSVD okRealLib [[1]] = .ok s → dcSVD okRealLib [[1]] = .ok s' → s = s') ∧
    (∀ s s', cxBaseSVD okCxLib [[(1, 0)]] = .ok s → cxDcSVD okCxLib [[(1, 0)]] = .ok s' → s = s') :=
  c2_variants_interchangeable okRealLib okCxLib
    okRealLib_indep okCxLib_indep [[1]] [[(1, 0)]]

/-- Claim C3: every error is surfaced to the immediate caller, none is
silently swallowed — a failure raised by the library inside any of the four
wrappers propagates unchanged (the bodies install no handler); `run` with
zero repetitions fails with `InvalidArgumentError`; a registry resolution
failure propagates to `run`'s caller; a failing kernel invocation surfaces
as `KernelExecutionError`; and `summarize` of no samples fails with
`EmptySampleError`. -/
theorem c3_errors_surfaced :
    (∀ (lib : RealSVDLib) (X : Mat) (e : String),
      lib.svd "standard" X = .error e → baseSVD lib X = .error e) ∧
    (∀ (lib : RealSVDLib) (X : Mat) (e : String),
      lib.svd "dc" X = .error e → dcSVD lib X = .error e) ∧
    (∀ (lib : CxSVDLib) (Y : CxMat) (e : String),
      lib.svd "standard" Y = .error e → cxBaseSVD lib Y = .error e) ∧
    (∀ (lib : CxSVDLib) (Y : CxMat) (e : String),
      lib.svd "dc" Y = .error e → cxDcSVD lib Y = .error e) ∧
    (∀ (reg : Registry) (names : List String) (M : Mat),
      run reg names M 0 = .error (.invalidArgument "repetitions must be at least 1")) ∧
    (∀ (reg : Registry) (name : String) (names : List String) (M : Mat)
      (reps : Nat) (e : BenchError), 1 ≤ reps → resolve reg name = .error e →
      run reg (name :: names) M reps = .error e) ∧
    (∀ (name : String) (k : TimedKernel) (M : Mat) (reps i : Nat) (c : String),
      collect k M 1 reps = .error (i, c) →
      runKernel name k M reps = .error (.kernelExecution name i c)) ∧
    summarize [] = .error .emptySample := by
  refine ⟨?_, ?_, ?_, ?_, ?_, ?_, ?_, rfl⟩
  · intro lib X e h
    unfold baseSVD baseSVDBody
    rw [h]
  · intro lib X e h
    unfold dcSVD dcSVDBody
    rw [h]
  · intro lib Y e h
    unfold cxBaseSVD cxBaseSVDBody
    rw [h]
  · intro lib Y e h
    unfold cxDcSVD cxDcSVDBody
    rw [h]
  · intro reg names M
    rfl
  · intro reg name names M reps e hreps hres
    unfold run runAll
    rw [if_neg (by omega), hres]
  · intro name k M reps i c h
    unfold runKernel
    rw [h]

/-- Witness for C3: a failing library call inside `baseSVD`, a zero
repetition count, an unknown kernel name, a kernel failing at its third
invocation, and an empty sample sequence all surface errors. -/
theorem c3_witness :
    baseSVD failRealLib [[1]] = .error "decomposition failed" ∧
    run [] ["k"] [[1]] 0 = .error (.invalidArgument "repetitions must be at least 1") ∧
    run [] ["k"] [[1]] 2 = .error (.unknownKernel "k") ∧
    runKernel "flaky" flakyKernel [[1]] 5 = .error (.kernelExecution "flaky" 3 "boom") ∧
    summarize [] = .error .emptySample :=
  ⟨c3_errors_surfaced.1 failRealLib [[1]] "decomposition failed" rfl,
   c3_errors_surfaced.2.2.2.2.1 [] ["k"] [[1]],
   c3_errors_surfaced.2.2.2.2.2.1 [] "k" [] [[1]] 2 (.unknownKernel "k")
     (by decide) rfl,
   c3_errors_surfaced.2.2.2.2.2.2.1 "flaky" flakyKernel [[1]] 5 3 "boom" rfl,
   c3_errors_surfaced.2.2.2.2.2.2.2⟩

/-- Claim C4: no invocation of any of the four wrappers, nor of the
harness's `run`, mutates the input matrix — in the state-passing embedding
the borrowed matrix at return is the matrix that was passed in. -/
theorem c4_input_unchanged (libR : RealSVDLib) (libC : CxSVDLib)
    (X : Mat) (Y : CxMat)
    (reg : Registry) (names : List String) (M : Mat) (reps : Nat) :
    (baseSVDBody libR X).2.X = X ∧
    (dcSVDBody libR X).2.X = X ∧
    (cxBaseSVDBody libC Y).2.X = Y ∧
    (cxDcSVDBody libC Y).2.X = Y ∧
    (runBody reg names M reps).2 = M :=
  ⟨baseSVDBody_X libR X, dcSVDBody_X libR X,
   cxBaseSVDBody_X libC Y, cxDcSVDBody_X libC Y, rfl⟩

/-- Claim C5: each wrapper is deterministic and pure — two invocations with
identical library state and identical input return identical singular-value
vectors, and the only state visible after the body runs leaves the borrowed
input untouched (the locals `U`, `S`, `V` are created afresh inside the
body, so nothing outlives the call). -/
theorem c5_kernels_deterministic_pure (libR libR' : RealSVDLib)
    (libC libC' : CxSVDLib) (X X' : Mat) (Y Y' : CxMat)
    (hR : libR = libR') (hX : X = X') (hC : libC = libC') (hY : Y = Y') :
    (baseSVD libR X = baseSVD libR' X' ∧ (baseSVDBody libR X).2.X = X) ∧
    (dcSVD libR X = dcSVD libR' X' ∧ (dcSVDBody libR X).2.X = X) ∧
    (cxBaseSVD libC Y = cxBaseSVD libC' Y' ∧ (cxBaseSVDBody libC Y).2.X = Y) ∧
    (cxDcSVD libC Y = cxDcSVD libC' Y' ∧ (cxDcSVDBody libC Y).2.X = Y) := by
  subst hR
  subst hX
  subst hC
  subst hY
  exact ⟨⟨rfl, baseSVDBody_X libR X⟩, ⟨rfl, dcSVDBody_X libR X⟩,
    ⟨rfl, cxBaseSVDBody_X libC Y⟩, ⟨rfl, cxDcSVDBody_X libC Y⟩⟩

/-- Witness for C5 at a concrete library and matrix. -/
theorem c5_witness :
    (baseSVD okRealLib [[1]] = baseSVD okRealLib [[1]] ∧
      (baseSVDBody okRealLib [[1]]).2.X = [[1]]) ∧
    (dcSVD okRealLib [[1]] = dcSVD okRealLib [[1]] ∧
      (dcSVDBody okRealLib [[1]]).2.X = [[1]]) ∧
    (cxBaseSVD okCxLib [[(1, 0)]] = cxBaseSVD okCxLib [[(1, 0)]] ∧
      (cxBaseSVDBody okCxLib [[(1, 0)]]).2.X = [[(1, 0)]]) ∧
    (cxDcSVD okCxLib [[(1, 0)]] = cxDcSVD okCxLib [[(1, 0)]] ∧
      (cxDcSVDBody okCxLib [[(1, 0)]]).2.X = [[(1, 0)]]) :=
  c5_kernels_deterministic_pure okRealLib okRealLib okCxLib okCxLib
    [[1]] [[1]] [[(1, 0)]] [[(1, 0)]] rfl rfl rfl rfl

/-- Claim C10: the complex wrappers return a real-valued vector — in the
embedding the singular-value output of `cxBaseSVD` and `cxDcSVD` lives in
the same real vector type `Vec` (definitionally `List ℚ`) as the output of
`baseSVD` and `dcSVD`, mirroring the `arma::vec S` declaration in all four
source bodies, and under the library contract every returned entry is a
non-negative real number. -/
theorem c10_cx_singular_values_real (lib : CxSVDLib) (h : CxLibContract lib)
    (Y : CxMat) (s : Vec) :
    Vec = List ℚ ∧
    (cxBaseSVD lib Y = .ok s → ∀ x ∈ s, 0 ≤ x) ∧
    (cxDcSVD lib Y = .ok s → ∀ x ∈ s, 0 ≤ x) := by
  refine ⟨rfl, fun hs => ?_, fun hs => ?_⟩
  · obtain ⟨U, V, hs⟩ := (cxBaseSVD_ok_iff lib Y s).mp hs
    exact (h _ _ _ _ _ hs).2
  · obtain ⟨U, V, hs⟩ := (cxDcSVD_ok_iff lib Y s).mp hs
    exact (h _ _ _ _ _ hs).2

/-- Witness for C10 at a concrete library and matrix. -/
theorem c10_witness :
    Vec = List ℚ ∧
    (cxBaseSVD okCxLib [[(1, 0)]] = .ok [2, 1] → ∀ x ∈ ([2, 1] : Vec), 0 ≤ x) ∧
    (cxDcSVD okCxLib [[(1, 0)]] = .ok [2, 1] → ∀ x ∈ ([2, 1] : Vec), 0 ≤ x) :=
  c10_cx_singular_values_real okCxLib okCxLib_contract [[(1, 0)]] [2, 1]

/-! ### Lemmas about the measurement loop -/

theorem collect_length (k : TimedKernel) (M : Mat) :
    ∀ (n i : Nat) (ds : List ℚ), collect k M i n = .ok ds → ds.length = n := by
  intro n
  induction n with
  | zero =>
    intro i ds h
    simp only [collect] at h
    cases h
    rfl
  | succ m ih =>
    intro i ds h
    cases hk : k i M with
    | error e => simp [collect, hk] at h
    | ok d =>
      cases hc : collect k M (i + 1) m with
      | error f => simp [collect, hk, hc] at h
      | ok ds' =>
        simp only [collect, hk, hc] at h
        cases h
        simp [ih (i + 1) ds' hc]

theorem collect_ok_of_no_fail (k : TimedKernel) (M : Mat)
    (hk : ∀ i, ∃ d, k i M = .ok d) :
    ∀ (n i : Nat), ∃ ds, collect k M i n = .ok ds ∧ ds.length = n := by
  intro n
  induction n with
  | zero => exact fun i => ⟨[], rfl, rfl⟩
  | succ m ih =>
    intro i
    obtain ⟨d, hd⟩ := hk i
    obtain ⟨ds, hds, hlen⟩ := ih (i + 1)
    exact ⟨d :: ds, by simp [collect, hd, hds], by simp [hlen]⟩

theorem collect_first_failure (k : TimedKernel) (M : Mat) (j : Nat) (c : String)
    (hj : k j M = .error c) :
    ∀ (n i : Nat), i ≤ j → j < i + n →
      (∀ l, i ≤ l → l < j → ∃ d, k l M = .ok d) →
      collect k M i n = .error (j, c) := by
  intro n
  induction n with
  | zero =>
    intro i hij hlt hok
    omega
  | succ m ih =>
    intro i hij hlt hok
    rcases Nat.eq_or_lt_of_le hij with heq | hlt2
    · subst heq
      simp [collect, hj]
    · obtain ⟨d, hd⟩ := hok i le_rfl hlt2
      have hrec := ih (i + 1) hlt2 (by omega) (fun l h1 h2 => hok l (by omega) h2)
      simp [collect, hd, hrec]

/-! ### Lemmas about the statistics of `summarize` -/

theorem sorted_getD_le_getD (l : List ℚ) (hs : l.Sorted (· ≤ ·))
    (i j : Nat) (hij : i ≤ j) (hj : j < l.length) :
    l.getD i 0 ≤ l.getD j 0 := by
  have hi : i < l.length := lt_of_le_of_lt hij hj
  rw [List.getD_eq_getElem l 0 hi, List.getD_eq_getElem l 0 hj]
  have h := hs.rel_get_of_le (a := ⟨i, hi⟩) (b := ⟨j, hj⟩) (by simp [Fin.le_def, hij])
  simpa [List.get_eq_getElem] using h

theorem sorted_getD_zero_le (l : List ℚ) (hs : l.Sorted (· ≤ ·)) :
    ∀ x ∈ l, l.getD 0 0 ≤ x := by
  intro x hx
  obtain ⟨i, rfl⟩ := List.mem_iff_get.mp hx
  have h0 : 0 < l.length := i.pos
  rw [List.getD_eq_getElem l 0 h0]
  have h := hs.rel_get_of_le (a := ⟨0, h0⟩) (b := i) (by simp [Fin.le_def])
  simpa [List.get_eq_getElem] using h

theorem sorted_le_getD_last (l : List ℚ) (hs : l.Sorted (· ≤ ·)) :
    ∀ x ∈ l, x ≤ l.getD (l.length - 1) 0 := by
  intro x hx
  obtain ⟨i, rfl⟩ := List.mem_iff_get.mp hx
  have hlast : l.length - 1 < l.length := by
    have := i.pos
    omega
  rw [List.getD_eq_getElem l 0 hlast]
  have hle : i ≤ (⟨l.length - 1, hlast⟩ : Fin l.length) := by
    have := i.isLt
    simp [Fin.le_def]
    omega
  have h := hs.rel_get_of_le (a := i) (b := ⟨l.length - 1, hlast⟩) hle
  simpa [List.get_eq_getElem] using h

theorem const_mul_length_le_sum (c : ℚ) :
    ∀ l : List ℚ, (∀ x ∈ l, c ≤ x) → c * l.length ≤ l.sum := by
  intro l
  induction l with
  | nil => intro h; simp
  | cons a t ih =>
    intro h
    have ha := h a (by simp)
    have ht := ih (fun x hx => h x (by simp [hx]))
    simp only [List.sum_cons, List.length_cons]
    push_cast
    nlinarith [ht, ha]

theorem sum_le_const_mul_length (c : ℚ) :
    ∀ l : List ℚ, (∀ x ∈ l, x ≤ c) → l.sum ≤ c * l.length := by
  intro l
  induction l with
  | nil => intro h; simp
  | cons a t ih =>
    intro h
    have ha := h a (by simp)
    have ht := ih (fun x hx => h x (by simp [hx]))
    simp only [List.sum_cons, List.length_cons]
    push_cast
    nlinarith [ht, ha]

theorem summarize_spec (samples : List ℚ) (hne : samples ≠ []) :
    ∃ r, summarize samples = .ok r ∧
      r.count = samples.length ∧
      r.min ≤ r.median ∧ r.median ≤ r.max ∧
      r.min ≤ r.mean ∧ r.mean ≤ r.max := by
  obtain ⟨a, t, rfl⟩ : ∃ a t, samples = a :: t := by
    cases samples with
    | nil => exact absurd rfl hne
    | cons a t => exact ⟨a, t, rfl⟩
  have hsum : summarize (a :: t) = .ok
      ⟨(a :: t).length,
       ((a :: t).insertionSort (· ≤ ·)).getD 0 0,
       ((a :: t).insertionSort (· ≤ ·)).getD ((a :: t).length - 1) 0,
       (a :: t).sum / ((a :: t).length : ℚ),
       if (a :: t).length % 2 = 1 then
         ((a :: t).insertionSort (· ≤ ·)).getD ((a :: t).length / 2) 0
       else
         (((a :: t).insertionSort (· ≤ ·)).getD ((a :: t).length / 2 - 1) 0 +
          ((a :: t).insertionSort (· ≤ ·)).getD ((a :: t).length / 2) 0) / 2⟩ := rfl
  have hsorted : ((a :: t).insertionSort (· ≤ ·)).Sorted (· ≤ ·) :=
    List.sorted_insertionSort _ _
  have hperm : List.Perm ((a :: t).insertionSort (· ≤ ·)) (a :: t) :=
    List.perm_insertionSort _ _
  have hlen : ((a :: t).insertionSort (· ≤ ·)).length = (a :: t).length :=
    hperm.length_eq
  have hpos : 0 < (a :: t).length := by simp
  have hposQ : (0 : ℚ) < ((a :: t).length : ℚ) := by exact_mod_cast hpos
  refine ⟨_, hsum, rfl, ?_, ?_, ?_, ?_⟩
  · show (((a :: t).insertionSort (· ≤ ·)).getD 0 0 ≤ _)
    by_cases hodd : (a :: t).length % 2 = 1
    · simp only [if_pos hodd]
      exact sorted_getD_le_getD _ hsorted 0 _ (Nat.zero_le _) (by omega)
    · simp only [if_neg hodd]
      have h1 : ((a :: t).insertionSort (· ≤ ·)).getD 0 0 ≤
          ((a :: t).insertionSort (· ≤ ·)).getD ((a :: t).length / 2 - 1) 0 :=
        sorted_getD_le_getD _ hsorted 0 _ (Nat.zero_le _) (by omega)
      have h2 : ((a :: t).insertionSort (· ≤ ·)).getD 0 0 ≤
          ((a :: t).insertionSort (· ≤ ·)).getD ((a :: t).length / 2) 0 :=
        sorted_getD_le_getD _ hsorted 0 _ (Nat.zero_le _) (by omega)
      linarith
  · show _ ≤ ((a :: t).insertionSort (· ≤ ·)).getD ((a :: t).length - 1) 0
    by_cases hodd : (a :: t).length % 2 = 1
    · simp only [if_pos hodd]
      exact sorted_getD_le_getD _ hsorted _ _ (by omega) (by omega)
    · simp only [if_neg hodd]
      have h1 : ((a :: t).insertionSort (· ≤ ·)).getD ((a :: t).length / 2 - 1) 0 ≤
          ((a :: t).insertionSort (· ≤ ·)).getD ((a :: t).length - 1) 0 :=
        sorted_getD_le_getD _ hsorted _ _ (by omega) (by omega)
      have h2 : ((a :: t).insertionSort (· ≤ ·)).getD ((a :: t).length / 2) 0 ≤
          ((a :: t).insertionSort (· ≤ ·)).getD ((a :: t).length - 1) 0 :=
        sorted_getD_le_getD _ hsorted _ _ (by omega) (by omega)
      linarith
  · show ((a :: t).insertionSort (· ≤ ·)).getD 0 0 ≤ (a :: t).sum / ((a :: t).length : ℚ)
    rw [le_div_iff₀ hposQ]
    have hmem : ∀ x ∈ (a :: t), ((a :: t).insertionSort (· ≤ ·)).getD 0 0 ≤ x :=
      fun x hx => sorted_getD_zero_le _ hsorted x (hperm.mem_iff.mpr hx)
    exact const_mul_length_le_sum _ _ hmem
  · show (a :: t).sum / ((a :: t).length : ℚ) ≤
      ((a :: t).insertionSort (· ≤ ·)).getD ((a :: t).length - 1) 0
    rw [div_le_iff₀ hposQ]
    have hmem : ∀ x ∈ (a :: t),
        x ≤ ((a :: t).insertionSort (· ≤ ·)).getD ((a :: t).length - 1) 0 := by
      intro x hx
      have h := sorted_le_getD_last _ hsorted x (hperm.mem_iff.mpr hx)
      rwa [hlen] at h
    exact sum_le_const_mul_length _ _ hmem

theorem summarize_count (ds : List ℚ) (r : BenchResult)
    (h : summarize ds = .ok r) : r.count = ds.length := by
  cases ds with
  | nil => cases h
  | cons a t =>
    simp only [summarize] at h
    cases h
    rfl

/-! ### Claims about the Timing Harness, Kernel Registry and Result Reporter -/

/-- Claim C6: for every valid matrix and every repetition count `R ≥ 1`,
`run` on a never-failing kernel produces exactly `R` timing samples for it —
the measurement loop collects a sample list of length `R`, and the reported
Benchmark Result counts those `R` samples — while `run` with a repetition
count below 1 fails with `InvalidArgumentError`. -/
theorem c6_run_repetition_count (reg : Registry) (name : String)
    (k : TimedKernel) (M : Mat) (R : Nat)
    (hres : resolve reg name = .ok k) (hR : 1 ≤ R)
    (hk : ∀ i, ∃ d, k i M = .ok d) :
    (∃ ds r, collect k M 1 R = .ok ds ∧ ds.length = R ∧
      summarize ds = .ok r ∧ r.count = R ∧
      run reg [name] M R = .ok [(name, .ok r)]) ∧
    (∀ (reg' : Registry) (names : List String) (M' : Mat),
      run reg' names M' 0 = .error (.invalidArgument "repetitions must be at least 1")) := by
  constructor
  · obtain ⟨ds, hds, hlen⟩ := collect_ok_of_no_fail k M hk R 1
    have hdsne : ds ≠ [] := by
      intro hnil
      rw [hnil] at hlen
      simp at hlen
      omega
    obtain ⟨r, hr, hcount, -⟩ := summarize_spec ds hdsne
    refine ⟨ds, r, hds, hlen, hr, by rw [hcount, hlen], ?_⟩
    have hrun : run reg [name] M R = runAll reg M R [name] := by
      unfold run
      rw [if_neg (by omega)]
    rw [hrun]
    simp only [runAll, hres, runKernel, hds, hr]
  · intro reg' names M'
    rfl

/-- Witness for C6: the always-succeeding kernel measured twice. -/
theorem c6_witness :
    (∃ ds r, collect okKernel [[1]] 1 2 = .ok ds ∧ ds.length = 2 ∧
      summarize ds = .ok r ∧ r.count = 2 ∧
      run [("k", okKernel)] ["k"] [[1]] 2 = .ok [("k", .ok r)]) ∧
    (∀ (reg' : Registry) (names : List String) (M' : Mat),
      run reg' names M' 0 = .error (.invalidArgument "repetitions must be at least 1")) :=
  c6_run_repetition_count [("k", okKernel)] "k" okKernel [[1]] 2 rfl
    (by omega) (fun i => ⟨1, rfl⟩)

/-- Claim C7: a kernel invocation failing at repetition `j` stops that
kernel's measurement series at the first failure and surfaces it as
`KernelExecutionError` wrapping the underlying cause together with the
kernel name and the repetition index; no Benchmark Result is reported for
the failing kernel, and the other kernels' entries in the same `run` call
are exactly what they would be without the failing kernel. -/
theorem c7_kernel_failure_isolated (reg : Registry) (nameF nameO : String)
    (k k' : TimedKernel) (M : Mat) (R j : Nat) (c : String)
    (hresF : resolve reg nameF = .ok k) (hresO : resolve reg nameO = .ok k')
    (hj1 : 1 ≤ j) (hjR : j ≤ R) (hfail : k j M = .error c)
    (hok : ∀ l, 1 ≤ l → l < j → ∃ d, k l M = .ok d) :
    runKernel nameF k M R = .error (.kernelExecution nameF j c) ∧
    run reg [nameF, nameO] M R =
      .ok [(nameF, .error (.kernelExecution nameF j c)),
           (nameO, runKernel nameO k' M R)] ∧
    run reg [nameO] M R = .ok [(nameO, runKernel nameO k' M R)] := by
  have hcol : collect k M 1 R = .error (j, c) :=
    collect_first_failure k M j c hfail R 1 hj1 (by omega) hok
  have hrk : runKernel nameF k M R = .error (.kernelExecution nameF j c) := by
    unfold runKernel
    rw [hcol]
  refine ⟨hrk, ?_, ?_⟩
  · have hrun : run reg [nameF, nameO] M R = runAll reg M R [nameF, nameO] := by
      unfold run
      rw [if_neg (by omega)]
    rw [hrun]
    simp only [runAll, hresF, hresO, hrk]
  · have hrun : run reg [nameO] M R = runAll reg M R [nameO] := by
      unfold run
      rw [if_neg (by omega)]
    rw [hrun]
    simp only [runAll, hresO]

/-- Witness for C7: a kernel failing on its 3rd invocation measured for 5
repetitions next to an always-succeeding kernel. -/
theorem c7_witness :
    runKernel "flaky" flakyKernel [[1]] 5 = .error (.kernelExecution "flaky" 3 "boom") ∧
    run [("flaky", flakyKernel), ("ok", okKernel)] ["flaky", "ok"] [[1]] 5 =
      .ok [("flaky", .error (.kernelExecution "flaky" 3 "boom")),
           ("ok", runKernel "ok" okKernel [[1]] 5)] ∧
    run [("flaky", flakyKernel), ("ok", okKernel)] ["ok"] [[1]] 5 =
      .ok [("ok", runKernel "ok" okKernel [[1]] 5)] :=
  c7_kernel_failure_isolated [("flaky", flakyKernel), ("ok", okKernel)]
    "flaky" "ok" flakyKernel okKernel [[1]] 5 3 "boom" rfl rfl
    (by omega) (by omega) rfl
    (fun l h1 h2 => ⟨1, by
      simp only [flakyKernel]
      rw [if_neg (by omega)]⟩)

/-- Claim C8: registering a kernel under a name that is already present
fails with `DuplicateNameError` and leaves the registry unchanged — after a
successful registration of `k0` under `name`, a second registration under
`name` is rejected and `resolve` still returns `k0`, the first
registration. -/
theorem c8_duplicate_name_rejected (reg reg' : Registry) (name : String)
    (k0 k1 : TimedKernel) (hreg : register reg name k0 = .ok reg') :
    register reg' name k1 = .error (.duplicateName name) ∧
    resolve reg' name = .ok k0 := by
  unfold register at hreg
  cases hfind : List.find? (fun p => p.1 == name) reg with
  | some p =>
    rw [hfind] at hreg
    cases hreg
  | none =>
    rw [hfind] at hreg
    injection hreg with h
    subst h
    have hfind' : List.find? (fun p => p.1 == name) (reg ++ [(name, k0)]) =
        some (name, k0) := by
      rw [List.find?_append, hfind]
      simp
    constructor
    · unfold register
      rw [hfind']
    · unfold resolve
      rw [hfind']

/-- Witness for C8: a duplicate registration of the name "std". -/
theorem c8_witness :
    register [("std", okKernel)] "std" flakyKernel = .error (.duplicateName "std") ∧
    resolve [("std", okKernel)] "std" = .ok okKernel :=
  c8_duplicate_name_rejected [] [("std", okKernel)] "std" okKernel flakyKernel rfl

/-- Claim C9: for every non-empty sample sequence, the Benchmark Result of
`summarize` satisfies `min ≤ median ≤ max` and `min ≤ mean ≤ max` and its
count equals the number of samples, which for a completed measurement
series is the requested repetition count; `summarize` of an empty sequence
fails with `EmptySampleError`. -/
theorem c9_benchmark_result_invariants (samples : List ℚ) (hne : samples ≠ []) :
    (∃ r, summarize samples = .ok r ∧
      r.min ≤ r.median ∧ r.median ≤ r.max ∧
      r.min ≤ r.mean ∧ r.mean ≤ r.max ∧ r.count = samples.length) ∧
    summarize [] = .error .emptySample ∧
    (∀ (k : TimedKernel) (M : Mat) (R i : Nat) (ds : List ℚ) (r : BenchResult),
      collect k M i R = .ok ds → summarize ds = .ok r → r.count = R) := by
  refine ⟨?_, rfl, ?_⟩
  · obtain ⟨r, h1, h2, h3, h4, h5, h6⟩ := summarize_spec samples hne
    exact ⟨r, h1, h3, h4, h5, h6, h2⟩
  · intro k M R i ds r hc hs
    rw [summarize_count ds r hs, collect_length k M R i ds hc]

/-- Witness for C9 on the concrete sample sequence `[3, 1, 2]`. -/
theorem c9_witness :
    (∃ r, summarize [3, 1, 2] = .ok r ∧
      r.min ≤ r.median ∧ r.median ≤ r.max ∧
      r.min ≤ r.mean ∧ r.mean ≤ r.max ∧ r.count = ([3, 1, 2] : List ℚ).length) ∧
    summarize [] = .error .emptySample ∧
    (∀ (k : TimedKernel) (M : Mat) (R i : Nat) (ds : List ℚ) (r : BenchResult),
      collect k M i R = .ok ds → summarize ds = .ok r → r.count = R) :=
  c9_benchmark_result_invariants [3, 1, 2] (by simp)

end SVDBench
